import Mathlib

/-!
Verification of the training-data-generator repository.

The repository normalizes free-text LLM output into validated
instruction/response records.  Python strings are modelled as lists of
characters; the Python string operations used by the source
( str.strip, str.split, str.startswith, str.endswith ) are embedded as
structurally recursive Lean functions so that every definition is
executable by kernel reduction.  The standard-library function
json.loads is an external collaborator of the repository; the
normalization functions are therefore parameterized over an arbitrary
loader of type List Char -> Option JValue, and a concrete executable
mini JSON parser, miniLoads, faithful to json.loads on the JSON
fragment exercised here, is supplied for concrete evaluations.
-/

/-- Whitespace characters stripped by Python str.strip and used as the
default separator set of str.split. -/
def pyIsSpace (c : Char) : Bool :=
  c = ' ' || c = '\t' || c = '\n' || c = '\x0d' || c = '\x0b' || c = '\x0c'

/-- Python str.strip: drop whitespace from both ends. -/
def pyStrip (l : List Char) : List Char :=
  ((l.dropWhile pyIsSpace).reverse.dropWhile pyIsSpace).reverse

/-- Worker for Python str.split(sep) with a one-character separator:
splits at every occurrence of the separator and keeps empty pieces. -/
def splitChGo (sep : Char) : List Char → List Char → List (List Char)
  | [], acc => [acc.reverse]
  | c :: rest, acc =>
      if c = sep then acc.reverse :: splitChGo sep rest []
      else splitChGo sep rest (c :: acc)

/-- Python text.split(sep) for a one-character separator. -/
def splitCh (sep : Char) (l : List Char) : List (List Char) :=
  splitChGo sep l []

/-- Worker for Python str.split() with no argument: split on runs of
whitespace, dropping empty pieces.  The accumulator holds the current
word reversed. -/
def splitWsGo : List Char → List Char → List (List Char)
  | [], acc => if acc.isEmpty then [] else [acc.reverse]
  | c :: rest, acc =>
      if pyIsSpace c then
        if acc.isEmpty then splitWsGo rest [] else acc.reverse :: splitWsGo rest []
      else splitWsGo rest (c :: acc)

/-- Python text.split() with no argument. -/
def pySplitWs (l : List Char) : List (List Char) :=
  splitWsGo l []

/-- Python text.startswith(seq) for list-of-char texts. -/
def isPre : List Char → List Char → Bool
  | [], _ => true
  | _ :: _, [] => false
  | p :: ps, c :: cs => p = c && isPre ps cs

/-- Python text.endswith(seq). -/
def isSuf (s l : List Char) : Bool :=
  isPre s.reverse l.reverse

/-- Python (ch in text) for a single character. -/
def containsChar (ch : Char) (l : List Char) : Bool :=
  l.any (fun c => c = ch)

/-- Python text.split(sep, 1) when sep is a single character known to
occur: returns the parts before and after the first occurrence. -/
def pySplitOnce (sep : Char) : List Char → (List Char × List Char)
  | [] => ([], [])
  | c :: rest =>
      if c = sep then ([], rest)
      else
        let (h, t) := pySplitOnce sep rest
        (c :: h, t)

/-- Fueled worker for Python str.split(sep) with a multi-character
separator: non-overlapping matches scanned left to right, empty pieces
kept.  The fuel always suffices when it exceeds the input length. -/
def splitSeqGo (sep : List Char) : Nat → List Char → List Char → List (List Char)
  | 0, l, acc => [acc.reverse ++ l]
  | fuel + 1, l, acc =>
      if isPre sep l then acc.reverse :: splitSeqGo sep fuel (l.drop sep.length) []
      else
        match l with
        | [] => [acc.reverse]
        | c :: rest => splitSeqGo sep fuel rest (c :: acc)

/-- Python text.split(sep) for a non-empty multi-character separator. -/
def splitSeq (sep l : List Char) : List (List Char) :=
  splitSeqGo sep (l.length + 1) l []

/-- JSON values as produced by json.loads.  Numbers keep their source
lexeme, which is enough structure for everything the repository does
with parsed values. -/
inductive JValue where
  | jnull : JValue
  | jbool : Bool → JValue
  | jnum : List Char → JValue
  | jstr : List Char → JValue
  | jarr : List JValue → JValue
  | jobj : List (List Char × JValue) → JValue

/-- A parsed JSON object body: the record type flowing through the
pipeline (Python dict from json.loads). -/
def JObj : Type := List (List Char × JValue)

/-- The key "instruction". -/
def ikey : List Char := "instruction".data

/-- The key "response". -/
def rkey : List Char := "response".data

/-- Python (key in dict). -/
def hasKeyB (kvs : JObj) (k : List Char) : Bool :=
  kvs.any (fun p => p.1 = k)

/-- BaseLLMProvider._validate_json_response from src/llm_providers/base.py:
json.loads the line, reject non-dict results and dicts missing the
instruction or response key, and otherwise return the parsed dict
unchanged.  Parameterized over the external loader json.loads. -/
def validateJsonResponse (loads : List Char → Option JValue) (line : List Char) :
    Option JObj :=
  match loads line with
  | some (JValue.jobj kvs) =>
      if hasKeyB kvs ikey && hasKeyB kvs rkey then some kvs else none
  | _ => none

example : pyStrip "  ab c\n".data = "ab c".data := by decide

example : splitCh '\n' "a\nb\n".data = ["a".data, "b".data, [] ] := by decide

example : pySplitWs "  a bc  d ".data = ["a".data, "bc".data, "d".data] := by decide

example : splitSeq "01".data "a01b01".data = ["a".data, "b".data, [] ] := by decide

example : pySplitOnce ':' "a:b:c".data = ("a".data, "b:c".data) := by decide

/-- The prose markers stripped by AnthropicProvider._clean_response_text. -/
def proseMarkers : List (List Char) :=
  [("Here are the training pairs in JSONL format:").data,
   ("Here are the training pairs:").data,
   ("Here are").data,
   ("Training pairs:").data]

/-- AnthropicProvider._clean_response_text: sequentially strip each known
marker from the start of the blob (restripping whitespace after each
removal), then strip surrounding whitespace. -/
def cleanResponse (raw : List Char) : List Char :=
  pyStrip (proseMarkers.foldl
    (fun t m => if isPre m t then pyStrip (t.drop m.length) else t) raw)

/-- One loop iteration of the strict line parse shared by the three src
providers: strip the line, skip it when empty, otherwise validate it. -/
def stripValidate (loads : List Char → Option JValue) (line : List Char) :
    Option JObj :=
  let l := pyStrip line
  if l.isEmpty then none else validateJsonResponse loads l

/-- The records collected by AnthropicProvider.generate_training_data
lines 105-111: clean the blob, split on newlines, strip each line, skip
empty lines, keep the lines _validate_json_response accepts. -/
def anthropicRecords (loads : List Char → Option JValue) (raw : List Char) :
    List JObj :=
  (splitCh '\n' (cleanResponse raw)).filterMap (stripValidate loads)

/-- The normalization failure kind: the only error the parsing stage of
the src providers can raise (LLMProviderError for an empty result set). -/
inductive NErr where
  | noParseableData : NErr
deriving DecidableEq

/-- AnthropicProvider.generate_training_data, parsing stage: the
collected records, or LLMProviderError when no line validated. -/
def anthropicNormalize (loads : List Char → Option JValue) (raw : List Char) :
    Except NErr (List JObj) :=
  let recs := anthropicRecords loads raw
  if recs.isEmpty then Except.error NErr.noParseableData else Except.ok recs

/-- The records collected by OpenAIProvider.generate_training_data lines
82-93: the response text is stripped as a whole, split on newlines, and
each stripped non-empty line validated; there is no prose-marker
cleaning and no fallback tier. -/
def openaiSrcRecords (loads : List Char → Option JValue) (raw : List Char) :
    List JObj :=
  (splitCh '\n' (pyStrip raw)).filterMap (stripValidate loads)

/-- OpenAIProvider.generate_training_data, parsing stage.  A shortfall
against the minimum pair target only logs a warning; the call fails only
when no line at all validated. -/
def openaiSrcNormalize (loads : List Char → Option JValue) (raw : List Char) :
    Except NErr (List JObj) :=
  let recs := openaiSrcRecords loads raw
  if recs.isEmpty then Except.error NErr.noParseableData else Except.ok recs

/-- Word count used by both _calculate_pairs_count implementations:
len(text.split()). -/
def wordCount (text : List Char) : Nat :=
  (pySplitWs text).length

/-- AnthropicProvider._calculate_pairs_count and
OpenAIProvider._calculate_pairs_count:
max(5, math.ceil((word_count / 1000) * 4)).  Python float arithmetic is
modelled exactly over the rationals, which agrees with the double
computation for every word count below 2^50. -/
def calculatePairsCount (text : List Char) : Nat :=
  max 5 ⌈((wordCount text : ℚ) / 1000) * 4⌉₊

/-- Ceiling of a quotient of naturals by 1000, expressed with natural
division. -/
theorem natCeil_div_thousand (a : ℕ) :
    ⌈(a : ℚ) / 1000⌉₊ = (a + 999) / 1000 := by
  rcases Nat.eq_zero_or_pos a with ha | ha
  · subst ha
    simp
  · have hn1 : 1 ≤ (a + 999) / 1000 := by omega
    rw [Nat.ceil_eq_iff (by omega)]
    constructor
    · rw [lt_div_iff₀ (by norm_num : (0 : ℚ) < 1000)]
      have h : ((a + 999) / 1000 - 1) * 1000 < a := by omega
      exact_mod_cast h
    · rw [div_le_iff₀ (by norm_num : (0 : ℚ) < 1000)]
      have h : a ≤ (a + 999) / 1000 * 1000 := by omega
      exact_mod_cast h

/-- The pair-count formula reduced to executable natural arithmetic. -/
theorem calculatePairsCount_eq_nat (text : List Char) :
    calculatePairsCount text = max 5 ((4 * wordCount text + 999) / 1000) := by
  unfold calculatePairsCount
  have h1 : ((wordCount text : ℚ) / 1000) * 4 = ((4 * wordCount text : ℕ) : ℚ) / 1000 := by
    push_cast
    ring
  rw [h1, natCeil_div_thousand]

/-- Failure kinds of the legacy generators in
dont_use/training_data_generator.py: an empty final result
(the Exception raised by generate_with_openai), or the Python TypeError
produced by testing key containment on a non-container value, which the
except clauses there do not catch. -/
inductive PyFail where
  | noParseableData : PyFail
  | typeError : PyFail
deriving DecidableEq

/-- Python (sub in hay) substring test. -/
def containsSeq (sub : List Char) : List Char → Bool
  | [] => isPre sub []
  | c :: rest => isPre sub (c :: rest) || containsSeq sub rest

/-- Python (k in obj) for an arbitrary json.loads result: key lookup on
dicts, membership on lists, substring test on strings, and a TypeError
on the remaining scalar values. -/
def pyIn (k : List Char) : JValue → Except PyFail Bool
  | JValue.jobj kvs => Except.ok (hasKeyB kvs k)
  | JValue.jarr xs =>
      Except.ok (xs.any fun x =>
        match x with
        | JValue.jstr s => decide (s = k)
        | _ => false)
  | JValue.jstr s => Except.ok (containsSeq k s)
  | _ => Except.error PyFail.typeError

/-- Tier 1 of TrainingDataGenerator.generate_with_openai (dont_use),
lines 97-109: per line, strip, skip empty lines, skip lines json.loads
rejects, and keep the parsed value when both keys test as present.
A parsed non-container value raises TypeError out of the loop. -/
def openaiLegacyTier1 (loads : List Char → Option JValue) :
    List (List Char) → Except PyFail (List JValue)
  | [] => Except.ok []
  | line :: rest =>
      let l := pyStrip line
      if l.isEmpty then openaiLegacyTier1 loads rest
      else
        match loads l with
        | none => openaiLegacyTier1 loads rest
        | some v => do
            let b1 ← pyIn ikey v
            let b2 ← pyIn rkey v
            let tail ← openaiLegacyTier1 loads rest
            if b1 && b2 then pure (v :: tail) else pure tail

/-- The record built by the tier-3 colon fallback of the legacy
generators: split a paragraph once on its first colon and strip both
sides. -/
def colonPair (p : List Char) : JValue :=
  let parts := pySplitOnce ':' p
  JValue.jobj [(ikey, JValue.jstr (pyStrip parts.1)),
               (rkey, JValue.jstr (pyStrip parts.2))]

/-- Tier 3 of the legacy generators: split the text on blank lines and
emit one colon pair per paragraph containing a colon. -/
def colonFallback (text : List Char) : List JValue :=
  (splitSeq ("\n\n").data text).filterMap
    (fun p => if containsChar ':' p then some (colonPair p) else none)

/-- TrainingDataGenerator.generate_with_openai (dont_use), parsing
stage, lines 92-126: the whole response is stripped, tier 1 runs over
its lines, tier 3 runs only when tier 1 kept nothing, and an empty
final result raises. -/
def openaiLegacyNormalize (loads : List Char → Option JValue) (raw : List Char) :
    Except PyFail (List JValue) := do
  let t := pyStrip raw
  let tier1 ← openaiLegacyTier1 loads (splitCh '\n' t)
  let data := if tier1.isEmpty then colonFallback t else tier1
  if data.isEmpty then Except.error PyFail.noParseableData else Except.ok data

/-- The loop state of TrainingDataGenerator.generate_with_ollama
(dont_use), lines 149-170: the records kept so far, the accumulation
buffer, and the in-json flag. -/
structure OState where
  data : List JValue
  cur : List Char
  inJson : Bool

/-- The accumulation scan of generate_with_ollama, lines 152-170: skip
blank lines; a line starting with a brace begins (or restarts) an
accumulation; while accumulating, a line ending with a brace closes the
buffer, which is parsed and kept when both keys test as present (a
json.loads failure is passed over); other lines are appended to an open
buffer and ignored otherwise. -/
def ollamaScan (loads : List Char → Option JValue) :
    List (List Char) → OState → Except PyFail OState
  | [], st => Except.ok st
  | line :: rest, st =>
      let l := pyStrip line
      if l.isEmpty then ollamaScan loads rest st
      else if isPre ['{'] l then
        ollamaScan loads rest { st with cur := l, inJson := true }
      else if st.inJson && isSuf ['}'] l then
        let buf := st.cur ++ l
        match loads buf with
        | none => ollamaScan loads rest { st with cur := [], inJson := false }
        | some v => do
            let b1 ← pyIn ikey v
            let b2 ← pyIn rkey v
            let d := if b1 && b2 then st.data ++ [v] else st.data
            ollamaScan loads rest { data := d, cur := [], inJson := false }
      else if st.inJson then
        ollamaScan loads rest { st with cur := st.cur ++ l }
      else ollamaScan loads rest st

/-- TrainingDataGenerator.generate_with_ollama (dont_use), parsing
stage, lines 148-180: run the accumulation scan over the raw lines;
when it kept nothing, fall back to the tier-3 colon split of the raw
text.  Note this path returns an empty list rather than raising when
both stages find nothing. -/
def ollamaLegacyNormalize (loads : List Char → Option JValue) (raw : List Char) :
    Except PyFail (List JValue) := do
  let st ← ollamaScan loads (splitCh '\n' raw) ⟨[], [], false⟩
  if st.data.isEmpty then Except.ok (colonFallback raw) else Except.ok st.data

/-- Error classes a provider attempt can raise, with the message text
the adapters interpolate into their LLMProviderError.  The adapters in
src never inspect the class: the tenacity decorator they use retries on
every exception alike. -/
inductive PyErr where
  | authError : List Char → PyErr
  | rateLimit : List Char → PyErr
  | timeout : List Char → PyErr
  | serverError : List Char → PyErr
  | other : List Char → PyErr

/-- The message text of an attempt error. -/
def PyErr.msg : PyErr → List Char
  | PyErr.authError m => m
  | PyErr.rateLimit m => m
  | PyErr.timeout m => m
  | PyErr.serverError m => m
  | PyErr.other m => m

/-- Modelled from the external tenacity library named in the source:
wait_exponential(multiplier=1, min=4, max=10) computes
multiplier * 2 ** attempt_number clamped into [min, max], where
attempt_number counts the attempt that just failed, starting at 1. -/
def waitExponentialWait (multiplier mn mx attemptNumber : Nat) : Nat :=
  max mn (min (multiplier * 2 ^ attemptNumber) mx)

/-- Modelled from the external tenacity library named in the source:
the retry loop of @retry(stop=stop_after_attempt(n), wait=w).  The
oracle gives the outcome of each attempt (0-indexed); the result is the
final outcome together with the number of attempts made and the list of
waits scheduled between attempts.  rem is the number of further
attempts the stop condition still allows after the current one. -/
def tenacityGo {α : Type} (oracle : Nat → Except PyErr α) (wait : Nat → Nat) :
    Nat → Nat → Except PyErr α × Nat × List Nat
  | n, 0 => (oracle n, n + 1, [])
  | n, rem + 1 =>
      match oracle n with
      | Except.ok a => (Except.ok a, n + 1, [])
      | Except.error _ =>
          let r := tenacityGo oracle wait (n + 1) rem
          (r.1, r.2.1, wait (n + 1) :: r.2.2)

/-- A full run of the tenacity decorator with stop_after_attempt(stop). -/
def tenacityRun {α : Type} (stop : Nat) (wait : Nat → Nat)
    (oracle : Nat → Except PyErr α) : Except PyErr α × Nat × List Nat :=
  tenacityGo oracle wait 0 (stop - 1)

/-- The retry behaviour of AnthropicProvider.generate_training_data and
OpenAIProvider.generate_training_data: both carry
@retry(stop=stop_after_attempt(3), wait=wait_exponential(multiplier=1,
min=4, max=10)), which retries every exception. -/
def retryingGenerate {α : Type} (oracle : Nat → Except PyErr α) :
    Except PyErr α × Nat × List Nat :=
  tenacityRun 3 (waitExponentialWait 1 4 10) oracle

/-- The retry behaviour of OllamaProvider.generate_training_data: the
method carries no retry decorator, so exactly one attempt is made and
no wait is ever scheduled. -/
def ollamaGenerate {α : Type} (oracle : Nat → Except PyErr α) :
    Except PyErr α × Nat × List Nat :=
  (oracle 0, 1, [])

/-- Hex digit characters. -/
def hexDigit (n : Nat) : Char :=
  if n < 10 then Char.ofNat (48 + n) else Char.ofNat (87 + n)

/-- Modelled from the standard library json.dumps escaping of one
string character (default ensure_ascii settings, restricted to the
ASCII texts handled here). -/
def escapeJsonChar (c : Char) : List Char :=
  if c = '"' then ['\\', '"']
  else if c = '\\' then ['\\', '\\']
  else if c = '\n' then ['\\', 'n']
  else if c = '\t' then ['\\', 't']
  else if c = '\x0d' then ['\\', 'r']
  else if c.toNat < 32 then
    ['\\', 'u', '0', '0', hexDigit (c.toNat / 16), hexDigit (c.toNat % 16)]
  else [c]

/-- Modelled from the standard library json.dumps with its default
separators: serialize one parsed value back to JSON text.  The fuel
bounds the nesting depth. -/
def jsonDumpsF : Nat → JValue → List Char
  | 0, _ => []
  | fuel + 1, v =>
      match v with
      | JValue.jnull => ("null").data
      | JValue.jbool true => ("true").data
      | JValue.jbool false => ("false").data
      | JValue.jnum s => s
      | JValue.jstr s => '"' :: (s.map escapeJsonChar).flatten ++ ['"']
      | JValue.jarr xs =>
          '[' :: List.intercalate (", ").data (xs.map (jsonDumpsF fuel)) ++ [']']
      | JValue.jobj kvs =>
          '{' :: List.intercalate (", ").data
            (kvs.map fun p =>
              ('"' :: (p.1.map escapeJsonChar).flatten ++ ['"']) ++
                (": ").data ++ jsonDumpsF fuel p.2) ++ ['}']

/-- json.dumps of one record.  The fixed fuel bounds only the nesting
depth of the value, far beyond anything the pipeline produces. -/
def jsonDumps (v : JValue) : List Char :=
  jsonDumpsF 100 v

/-- The three provider adapters held by the TrainingDataGenerator
constructor in src/main.py.  Each is the parsing outcome of one
generate_training_data call on the processed text: a list of records,
or the LLMProviderError message it raised. -/
structure Providers where
  claude : List Char → Except PyErr (List JObj)
  openai : List Char → Except PyErr (List JObj)
  ollama : List Char → Except PyErr (List JObj)

/-- self.providers.get(provider) from src/main.py lines 25-29 and 67:
the dict maps exactly the names Claude, OpenAI and Ollama. -/
def providersGet (pv : Providers) (name : List Char) :
    Option (List Char → Except PyErr (List JObj)) :=
  if name = ("Claude").data then some pv.claude
  else if name = ("OpenAI").data then some pv.openai
  else if name = ("Ollama").data then some pv.ollama
  else none

/-- TextProcessor.process_input from src/text_processor.py: with a PDF
source the external extractor runs on its bytes; otherwise the text
input is returned unchanged.  The extractor is the opaque external
collaborator (pymupdf), given as a parameter. -/
def processInput (extract : List Char → Except (List Char) (List Char))
    (textInput : List Char) (pdfFile : Option (List Char)) :
    Except (List Char) (List Char) :=
  match pdfFile with
  | some bytes => extract bytes
  | none => Except.ok textInput

/-- TrainingDataGenerator.generate_data from src/main.py lines 50-93.
savePath models the outcome of _save_jsonl_file (None on a failed
write); the function returns the display text and the optional file
path exactly as the source does, converting every raised error into an
error string. -/
def generate_data (pv : Providers)
    (extract : List Char → Except (List Char) (List Char))
    (savePath : Option (List Char))
    (textInput : List Char) (pdfFile : Option (List Char))
    (provider : List Char) : List Char × Option (List Char) :=
  if textInput.isEmpty && pdfFile.isNone then
    (("Error: Please provide either text input or upload a PDF file.").data, none)
  else
    match processInput extract textInput pdfFile with
    | Except.error e => (("An unexpected error occurred: ").data ++ e, none)
    | Except.ok processed =>
        if (pyStrip processed).isEmpty then
          (("Error: No valid text content found.").data, none)
        else
          match providersGet pv provider with
          | none => (("Error: Invalid provider selected: ").data ++ provider, none)
          | some gen =>
              match gen processed with
              | Except.error e =>
                  (("Error with ").data ++ provider ++ (": ").data ++ e.msg, none)
              | Except.ok data =>
                  if data.isEmpty then
                    (("Error: No training data was generated.").data, none)
                  else
                    let out := List.intercalate ['\n']
                      (data.map fun kvs => jsonDumps (JValue.jobj kvs))
                    match savePath with
                    | none => (out, none)
                    | some p => (out, some p)

/-- The whitespace skipped between JSON tokens by json.loads. -/
def skipWs (l : List Char) : List Char :=
  l.dropWhile (fun c => c = ' ' || c = '\t' || c = '\n' || c = '\x0d')

/-- JSON string escape characters accepted by json.loads (the \uXXXX
form does not occur in the texts handled here). -/
def escChar (e : Char) : Option Char :=
  if e = '"' then some '"'
  else if e = '\\' then some '\\'
  else if e = '/' then some '/'
  else if e = 'n' then some '\n'
  else if e = 't' then some '\t'
  else if e = 'r' then some '\x0d'
  else if e = 'b' then some '\x08'
  else if e = 'f' then some '\x0c'
  else none

/-- Body of a JSON string literal, after the opening quote: the decoded
characters and the input following the closing quote.  Raw control
characters are rejected, as json.loads does in strict mode. -/
def parseStrBody : List Char → Option (List Char × List Char)
  | [] => none
  | '"' :: rest => some ([], rest)
  | '\\' :: e :: rest =>
      match escChar e with
      | some ch => (parseStrBody rest).map fun p => (ch :: p.1, p.2)
      | none => none
  | ['\\'] => none
  | c :: rest =>
      if c.toNat < 32 then none
      else (parseStrBody rest).map fun p => (c :: p.1, p.2)

/-- Fraction part of a JSON number lexeme. -/
def parseFrac : List Char → Option (List Char × List Char)
  | '.' :: r =>
      let fs := r.takeWhile Char.isDigit
      if fs.isEmpty then none else some ('.' :: fs, r.dropWhile Char.isDigit)
  | l => some ([], l)

/-- Exponent part of a JSON number lexeme. -/
def parseExp : List Char → Option (List Char × List Char)
  | [] => some ([], [])
  | c :: r =>
      if c = 'e' || c = 'E' then
        let (sgn, r1) :=
          match r with
          | '+' :: rr => ((['+'] : List Char), rr)
          | '-' :: rr => ((['-'] : List Char), rr)
          | _ => (([] : List Char), r)
        let es := r1.takeWhile Char.isDigit
        if es.isEmpty then none
        else some (c :: sgn ++ es, r1.dropWhile Char.isDigit)
      else some ([], c :: r)

/-- A JSON number lexeme: optional sign, integer part without leading
zeros, optional fraction and exponent. -/
def parseNum (l : List Char) : Option (List Char × List Char) :=
  let (sign, l1) :=
    match l with
    | '-' :: r => ((['-'] : List Char), r)
    | _ => (([] : List Char), l)
  let ds := l1.takeWhile Char.isDigit
  if ds.isEmpty then none
  else if 2 ≤ ds.length && ds.headD 'x' = '0' then none
  else
    match parseFrac (l1.dropWhile Char.isDigit) with
    | none => none
    | some (fp, r2) =>
        match parseExp r2 with
        | none => none
        | some (ep, r3) => some (sign ++ ds ++ fp ++ ep, r3)

/-- Parser modes: a value, the members of an object after its opening
brace, or the elements of an array after its opening bracket. -/
inductive PMode where
  | pval : PMode
  | pmembers : List (List Char × JValue) → PMode
  | pelems : List JValue → PMode

/-- Modelled from the standard library json.loads (an external
collaborator of the repository): a recursive-descent parser for the
JSON grammar, returning the parsed value and the remaining input.  The
fuel decreases on every recursive call; the top-level entry point
supplies enough for any input of the given length. -/
def parseJ : Nat → PMode → List Char → Option (JValue × List Char)
  | 0, _, _ => none
  | fuel + 1, PMode.pval, s0 =>
      let s := skipWs s0
      match s with
      | [] => none
      | c :: rest =>
          if c = '{' then
            match skipWs rest with
            | '}' :: r2 => some (JValue.jobj [], r2)
            | r => parseJ fuel (PMode.pmembers []) r
          else if c = '[' then
            match skipWs rest with
            | ']' :: r2 => some (JValue.jarr [], r2)
            | r => parseJ fuel (PMode.pelems []) r
          else if c = '"' then
            (parseStrBody rest).map fun p => (JValue.jstr p.1, p.2)
          else if isPre ("true").data s then some (JValue.jbool true, s.drop 4)
          else if isPre ("false").data s then some (JValue.jbool false, s.drop 5)
          else if isPre ("null").data s then some (JValue.jnull, s.drop 4)
          else if c = '-' || c.isDigit then
            (parseNum s).map fun p => (JValue.jnum p.1, p.2)
          else none
  | fuel + 1, PMode.pmembers acc, s0 =>
      match skipWs s0 with
      | '"' :: rest =>
          match parseStrBody rest with
          | none => none
          | some (key, r1) =>
              match skipWs r1 with
              | ':' :: r2 =>
                  match parseJ fuel PMode.pval r2 with
                  | none => none
                  | some (v, r3) =>
                      match skipWs r3 with
                      | ',' :: r4 => parseJ fuel (PMode.pmembers (acc ++ [(key, v)])) r4
                      | '}' :: r4 => some (JValue.jobj (acc ++ [(key, v)]), r4)
                      | _ => none
              | _ => none
      | _ => none
  | fuel + 1, PMode.pelems acc, s0 =>
      match parseJ fuel PMode.pval s0 with
      | none => none
      | some (v, r) =>
          match skipWs r with
          | ',' :: r2 => parseJ fuel (PMode.pelems (acc ++ [v])) r2
          | ']' :: r2 => some (JValue.jarr (acc ++ [v]), r2)
          | _ => none

/-- Modelled from the standard library json.loads: parse a complete
JSON document, requiring the whole input to be consumed up to trailing
whitespace. -/
def miniLoads (s : List Char) : Option JValue :=
  match parseJ (2 * s.length + 2) PMode.pval s with
  | some (v, rest) => if (skipWs rest).isEmpty then some v else none
  | none => none

example : miniLoads ("\x7b\"instruction\":\"a\",\"response\":\"b\"\x7d").data =
    some (JValue.jobj [(ikey, JValue.jstr ("a").data), (rkey, JValue.jstr ("b").data)]) := by
  rfl

example : miniLoads ("no structure, no colon").data = none := by rfl

example : miniLoads ("[1, 2]").data =
    some (JValue.jarr [JValue.jnum ("1").data, JValue.jnum ("2").data]) := by rfl

example : miniLoads ("\x7b \"a\" : null \x7d").data =
    some (JValue.jobj [(("a").data, JValue.jnull)]) := by rfl

example : miniLoads ("\"instruction\": \"a\",").data = none := by rfl

/-- A text of n whitespace-separated words. -/
def mkText (n : Nat) : List Char :=
  (List.replicate n ['w', ' ']).flatten

/-- The word count of mkText n is n. -/
theorem wordCount_mkText (n : Nat) : wordCount (mkText n) = n := by
  have key : ∀ m : Nat, splitWsGo (mkText m) [] = List.replicate m ['w'] := by
    intro m
    induction m with
    | zero => rfl
    | succ k ih =>
        have h1 : mkText (k + 1) = 'w' :: ' ' :: mkText k := by
          simp [mkText, List.replicate_succ]
        rw [h1]
        show splitWsGo ('w' :: ' ' :: mkText k) [] = List.replicate (k + 1) ['w']
        rw [splitWsGo]
        simp only [show pyIsSpace 'w' = false from rfl, Bool.false_eq_true, if_false]
        rw [splitWsGo]
        simp only [show pyIsSpace ' ' = true from rfl, if_true]
        simp [ih, List.replicate_succ]
  simp [wordCount, pySplitWs, key]

/-- C5: For every source text, the computed minimum pair count equals
max(5, ceil(word_count / 1000 * 4)), where word_count is the number of
whitespace-separated words in the text; equivalently, in natural
arithmetic, max 5 of the ceiling division of 4 * word_count by 1000. -/
theorem C5_min_pairs_formula (text : List Char) :
    calculatePairsCount text = max 5 ⌈((wordCount text : ℚ) / 1000) * 4⌉₊ ∧
    calculatePairsCount text = max 5 ((4 * wordCount text + 999) / 1000) :=
  ⟨rfl, calculatePairsCount_eq_nat text⟩

/-- C6 (amended): the computed minimum pair count is monotonically
non-decreasing in word count and equals 5 for a 0-word text, 5 (not 9)
for a 1000-word text, and 10 (not 15) for a 2500-word text. -/
theorem C6_min_pairs_monotone_values :
    (∀ t1 t2 : List Char, wordCount t1 ≤ wordCount t2 →
        calculatePairsCount t1 ≤ calculatePairsCount t2) ∧
    calculatePairsCount [] = 5 ∧
    (wordCount (mkText 1000) = 1000 ∧ calculatePairsCount (mkText 1000) = 5) ∧
    (wordCount (mkText 2500) = 2500 ∧ calculatePairsCount (mkText 2500) = 10) := by
  refine ⟨?_, ?_, ⟨wordCount_mkText 1000, ?_⟩, ⟨wordCount_mkText 2500, ?_⟩⟩
  · intro t1 t2 h
    rw [calculatePairsCount_eq_nat, calculatePairsCount_eq_nat]
    exact max_le_max le_rfl (Nat.div_le_div_right (by omega))
  · rw [calculatePairsCount_eq_nat]
    decide
  · rw [calculatePairsCount_eq_nat, wordCount_mkText]
    decide
  · rw [calculatePairsCount_eq_nat, wordCount_mkText]
    decide

/-- C6 (counterexample): a 1000-word text yields a minimum pair count
of 5, not the 9 stated in the specification. -/
theorem C6_counterexample_1000_words :
    wordCount (mkText 1000) = 1000 ∧ calculatePairsCount (mkText 1000) ≠ 9 := by
  refine ⟨wordCount_mkText 1000, ?_⟩
  rw [calculatePairsCount_eq_nat, wordCount_mkText]
  norm_num

/-- C6 (witness): the monotonicity part applied at two concrete texts. -/
theorem C6_min_pairs_monotone_values_witness :
    wordCount ("a").data ≤ wordCount ("a b").data ∧
    calculatePairsCount ("a").data ≤ calculatePairsCount ("a b").data :=
  ⟨by decide, C6_min_pairs_monotone_values.1 ("a").data ("a b").data (by decide)⟩

/-- The clamped exponential wait always lies in [4, 10]. -/
theorem waitExponentialWait_bounds (n : Nat) :
    4 ≤ waitExponentialWait 1 4 10 n ∧ waitExponentialWait 1 4 10 n ≤ 10 := by
  unfold waitExponentialWait
  constructor
  · exact le_max_left _ _
  · exact max_le (by norm_num) (min_le_right _ _)

/-- The retry loop makes at most one more attempt than its remaining
budget. -/
theorem tenacityGo_attempts_le {α : Type} (oracle : Nat → Except PyErr α)
    (wait : Nat → Nat) (rem n : Nat) :
    (tenacityGo oracle wait n rem).2.1 ≤ n + rem + 1 := by
  induction rem generalizing n with
  | zero => simp [tenacityGo]
  | succ k ih =>
      rw [tenacityGo]
      match oracle n with
      | Except.ok a => simp
      | Except.error e =>
          simp only
          have := ih (n + 1)
          omega

/-- The retry loop always makes at least one attempt beyond the index
it starts at. -/
theorem tenacityGo_attempts_ge {α : Type} (oracle : Nat → Except PyErr α)
    (wait : Nat → Nat) (rem n : Nat) :
    n + 1 ≤ (tenacityGo oracle wait n rem).2.1 := by
  induction rem generalizing n with
  | zero => simp [tenacityGo]
  | succ k ih =>
      rw [tenacityGo]
      match oracle n with
      | Except.ok a => simp
      | Except.error e =>
          simp only
          have := ih (n + 1)
          omega

/-- Every wait the retry loop schedules is produced by the wait
function at some attempt number. -/
theorem tenacityGo_waits {α : Type} (oracle : Nat → Except PyErr α)
    (wait : Nat → Nat) (rem n : Nat) (w : Nat)
    (hw : w ∈ (tenacityGo oracle wait n rem).2.2) : ∃ k, w = wait k := by
  induction rem generalizing n with
  | zero => simp [tenacityGo] at hw
  | succ k ih =>
      rw [tenacityGo] at hw
      match h : oracle n with
      | Except.ok a => simp [h] at hw
      | Except.error e =>
          simp only [h] at hw
          rcases List.mem_cons.mp hw with h1 | h1
          · exact ⟨n + 1, h1⟩
          · exact ih (n + 1) h1

/-- C9 (amended): the Claude and OpenAI adapters make at most 3
attempts with every scheduled wait clamped into [4, 10], but they retry
every exception alike: whenever the first attempt fails, for any error
class including an authentication failure, a second attempt is made.
The Ollama adapter has no retry decorator at all: it makes exactly one
attempt and schedules no waits. -/
theorem C9_retry_policy :
    (∀ (oracle : Nat → Except PyErr (List JObj)),
        (retryingGenerate oracle).2.1 ≤ 3 ∧
        ∀ w ∈ (retryingGenerate oracle).2.2, 4 ≤ w ∧ w ≤ 10) ∧
    (∀ (oracle : Nat → Except PyErr (List JObj)) (e : PyErr),
        oracle 0 = Except.error e → 2 ≤ (retryingGenerate oracle).2.1) ∧
    (∀ (oracle : Nat → Except PyErr (List JObj)),
        ollamaGenerate oracle = (oracle 0, 1, [])) := by
  refine ⟨fun oracle => ⟨?_, ?_⟩, fun oracle e he => ?_, fun oracle => rfl⟩
  · have := tenacityGo_attempts_le oracle (waitExponentialWait 1 4 10) 2 0
    simpa [retryingGenerate, tenacityRun] using this
  · intro w hw
    have : ∃ k, w = waitExponentialWait 1 4 10 k := by
      refine tenacityGo_waits oracle (waitExponentialWait 1 4 10) 2 0 w ?_
      simpa [retryingGenerate, tenacityRun] using hw
    rcases this with ⟨k, rfl⟩
    exact waitExponentialWait_bounds k
  · show 2 ≤ (tenacityGo oracle (waitExponentialWait 1 4 10) 0 2).2.1
    rw [tenacityGo, he]
    simp only
    have := tenacityGo_attempts_ge oracle (waitExponentialWait 1 4 10) 1 (0 + 1)
    omega

/-- C9 (witness): the amended policy applied to an adapter whose first
attempt raises an authentication error. -/
theorem C9_retry_policy_witness :
    (fun (_ : Nat) => (Except.error (PyErr.authError ("bad key").data) :
        Except PyErr (List JObj))) 0 =
      Except.error (PyErr.authError ("bad key").data) ∧
    2 ≤ (retryingGenerate (fun (_ : Nat) =>
      (Except.error (PyErr.authError ("bad key").data) :
        Except PyErr (List JObj)))).2.1 :=
  ⟨rfl, C9_retry_policy.2.1 _ (PyErr.authError ("bad key").data) rfl⟩

/-- C9 (counterexample): with an adapter whose every attempt raises an
authentication failure, the Claude/OpenAI retry wrapper makes 3
attempts with waits [4, 4] instead of surfacing the failure on the
first attempt; and the Ollama adapter does not retry a transient
timeout that the very next attempt would have turned into a success. -/
theorem C9_counterexample_uniform_retry :
    (retryingGenerate (fun (_ : Nat) =>
        (Except.error (PyErr.authError ("invalid key").data) :
          Except PyErr (List JObj)))).2.1 = 3 ∧
    (retryingGenerate (fun (_ : Nat) =>
        (Except.error (PyErr.authError ("invalid key").data) :
          Except PyErr (List JObj)))).2.2 = [4, 4] ∧
    (ollamaGenerate (fun (n : Nat) =>
        if n = 0 then (Except.error (PyErr.timeout ("timed out").data) :
          Except PyErr (List JObj)) else Except.ok [])).2.1 = 1 ∧
    (ollamaGenerate (fun (n : Nat) =>
        if n = 0 then (Except.error (PyErr.timeout ("timed out").data) :
          Except PyErr (List JObj)) else Except.ok [])).1 =
      Except.error (PyErr.timeout ("timed out").data) := by
  refine ⟨rfl, rfl, rfl, rfl⟩

/-- C10: for every provider name outside Claude, OpenAI, Ollama,
generate_data on non-empty text input with no PDF returns the
human-readable invalid-provider string and a null file path.  The
result is the same constant for every choice of the three adapters, the
extractor and the save outcome, so no backend adapter is invoked, and
the returned string begins with Error. -/
theorem C10_invalid_provider_name (pv : Providers)
    (extract : List Char → Except (List Char) (List Char))
    (savePath : Option (List Char)) (textInput provider : List Char)
    (h1 : (pyStrip textInput).isEmpty = false)
    (h2 : provider ≠ ("Claude").data)
    (h3 : provider ≠ ("OpenAI").data)
    (h4 : provider ≠ ("Ollama").data) :
    generate_data pv extract savePath textInput none provider =
      (("Error: Invalid provider selected: ").data ++ provider, none) ∧
    isPre ("Error").data
      (generate_data pv extract savePath textInput none provider).1 = true := by
  have hne : textInput.isEmpty = false := by
    cases textInput with
    | nil => simp [pyStrip] at h1
    | cons c rest => rfl
  have hmain : generate_data pv extract savePath textInput none provider =
      (("Error: Invalid provider selected: ").data ++ provider, none) := by
    unfold generate_data
    rw [hne]
    simp only [Bool.false_and, Bool.false_eq_true, if_false, Option.isNone_none]
    show (match processInput extract textInput none with
      | Except.error e => (("An unexpected error occurred: ").data ++ e, none)
      | Except.ok processed => _) = _
    rw [show processInput extract textInput none = Except.ok textInput from rfl]
    simp only [h1, Bool.false_eq_true, if_false]
    unfold providersGet
    rw [if_neg h2, if_neg h3, if_neg h4]
  refine ⟨hmain, ?_⟩
  rw [hmain]
  rfl

/-- C10 (witness): an unsupported provider name on concrete input. -/
theorem C10_invalid_provider_name_witness :
    (pyStrip ("hello world").data).isEmpty = false ∧
    generate_data
        ⟨fun _ => Except.error (PyErr.other []),
         fun _ => Except.error (PyErr.other []),
         fun _ => Except.error (PyErr.other [])⟩
        (fun _ => Except.error []) none ("hello world").data none
        ("Gemini").data =
      (("Error: Invalid provider selected: ").data ++ ("Gemini").data, none) :=
  ⟨by decide,
   (C10_invalid_provider_name _ _ _ _ _ (by decide) (by decide) (by decide)
      (by decide)).1⟩

/-- C4: the strict-parse stage of the src providers raises exactly when
it collected zero records: per-line failures are recovered locally (the
collection is a total filterMap), and in particular the empty response
and a response with no JSON structure and no colon both fail with the
no-parseable-data provider error, for the Anthropic and the OpenAI
adapters alike. -/
theorem C4_error_iff_no_records (loads : List Char → Option JValue)
    (raw : List Char) :
    (anthropicNormalize loads raw = Except.error NErr.noParseableData ↔
      anthropicRecords loads raw = []) ∧
    (openaiSrcNormalize loads raw = Except.error NErr.noParseableData ↔
      openaiSrcRecords loads raw = []) ∧
    anthropicNormalize loads [] = Except.error NErr.noParseableData ∧
    openaiSrcNormalize loads [] = Except.error NErr.noParseableData ∧
    anthropicNormalize miniLoads ("no structure, no colon").data =
      Except.error NErr.noParseableData ∧
    openaiSrcNormalize miniLoads ("no structure, no colon").data =
      Except.error NErr.noParseableData := by
  refine ⟨?_, ?_, rfl, rfl, rfl, rfl⟩
  · by_cases h : (anthropicRecords loads raw).isEmpty = true
    · simp [anthropicNormalize, h, List.isEmpty_iff.mp h]
    · simp only [Bool.not_eq_true] at h
      simp [anthropicNormalize, h]
      simpa using List.isEmpty_eq_false.mp h
  · by_cases h : (openaiSrcRecords loads raw).isEmpty = true
    · simp [openaiSrcNormalize, h, List.isEmpty_iff.mp h]
    · simp only [Bool.not_eq_true] at h
      simp [openaiSrcNormalize, h]
      simpa using List.isEmpty_eq_false.mp h

/-- A line the strict parse keeps always carries both keys. -/
theorem stripValidate_some_keys (loads : List Char → Option JValue)
    (line : List Char) (kvs : JObj)
    (h : stripValidate loads line = some kvs) :
    hasKeyB kvs ikey = true ∧ hasKeyB kvs rkey = true := by
  unfold stripValidate at h
  by_cases he : (pyStrip line).isEmpty = true
  · simp [he] at h
  · simp only [Bool.not_eq_true] at he
    simp only [he, Bool.false_eq_true, if_false] at h
    unfold validateJsonResponse at h
    cases hl : loads (pyStrip line) with
    | none => rw [hl] at h; exact absurd h (by simp)
    | some v =>
        rw [hl] at h
        cases v with
        | jobj kvs2 =>
            by_cases hk : (hasKeyB kvs2 ikey && hasKeyB kvs2 rkey) = true
            · simp only [hk, if_true, Option.some.injEq] at h
              subst h
              simp only [Bool.and_eq_true] at hk
              exact hk
            · simp [hk] at h
        | jnull => exact absurd h (by simp)
        | jbool b => exact absurd h (by simp)
        | jnum s => exact absurd h (by simp)
        | jstr s => exact absurd h (by simp)
        | jarr xs => exact absurd h (by simp)

/-- C7 (amended): every record emitted by the strict parse has both the
instruction and the response key present; presence is the only value
constraint the code checks, so null, empty or non-string values pass
through. -/
theorem C7_emitted_records_have_keys (loads : List Char → Option JValue)
    (raw : List Char) :
    ∀ rec ∈ anthropicRecords loads raw,
      hasKeyB rec ikey = true ∧ hasKeyB rec rkey = true := by
  intro rec hrec
  unfold anthropicRecords at hrec
  rcases List.mem_filterMap.mp hrec with ⟨line, _, hv⟩
  exact stripValidate_some_keys loads line rec hv

/-- C7 (witness): the key-presence claim applied to the record parsed
from a concrete well-formed line. -/
theorem C7_emitted_records_have_keys_witness :
    hasKeyB [(ikey, JValue.jstr ("q").data), (rkey, JValue.jstr ("r").data)]
      ikey = true ∧
    hasKeyB [(ikey, JValue.jstr ("q").data), (rkey, JValue.jstr ("r").data)]
      rkey = true :=
  C7_emitted_records_have_keys miniLoads
    ("\x7b\"instruction\":\"q\",\"response\":\"r\"\x7d").data
    [(ikey, JValue.jstr ("q").data), (rkey, JValue.jstr ("r").data)]
    (by rw [show anthropicRecords miniLoads
        ("\x7b\"instruction\":\"q\",\"response\":\"r\"\x7d").data =
        [[(ikey, JValue.jstr ("q").data), (rkey, JValue.jstr ("r").data)]]
      from rfl]
        exact List.mem_singleton_self _)

/-- C7 (counterexample): a line whose instruction and response values
are empty strings is emitted unchanged, violating the stated non-empty
invariant (the same holds for null values). -/
theorem C7_counterexample_empty_values :
    anthropicNormalize miniLoads
        ("\x7b\"instruction\":\"\",\"response\":\"\"\x7d").data =
      Except.ok [[(ikey, JValue.jstr []), (rkey, JValue.jstr [])]] ∧
    anthropicNormalize miniLoads
        ("\x7b\"instruction\":null,\"response\":\"x\"\x7d").data =
      Except.ok [[(ikey, JValue.jnull), (rkey, JValue.jstr ("x").data)]] :=
  ⟨rfl, rfl⟩

/-- C8 (amended): extra fields are ignored only by the validation test;
_validate_json_response returns the parsed dict unchanged, so the
emitted record (and hence its serialized JSONL line) carries every
field of the source object, not just the two required ones. -/
theorem C8_extra_fields_retained (loads : List Char → Option JValue)
    (line : List Char) (kvs : JObj)
    (h1 : loads line = some (JValue.jobj kvs))
    (h2 : hasKeyB kvs ikey = true) (h3 : hasKeyB kvs rkey = true) :
    validateJsonResponse loads line = some kvs := by
  unfold validateJsonResponse
  rw [h1]
  show (if (hasKeyB kvs ikey && hasKeyB kvs rkey) = true then some kvs else none) =
    some kvs
  rw [h2, h3]
  rfl

/-- C8 (witness): retention applied to a concrete line with an extra
field. -/
theorem C8_extra_fields_retained_witness :
    miniLoads ("\x7b\"instruction\":\"a\",\"response\":\"b\",\"extra\":\"c\"\x7d").data =
      some (JValue.jobj [(ikey, JValue.jstr ("a").data),
        (rkey, JValue.jstr ("b").data),
        (("extra").data, JValue.jstr ("c").data)]) ∧
    validateJsonResponse miniLoads
        ("\x7b\"instruction\":\"a\",\"response\":\"b\",\"extra\":\"c\"\x7d").data =
      some [(ikey, JValue.jstr ("a").data), (rkey, JValue.jstr ("b").data),
        (("extra").data, JValue.jstr ("c").data)] :=
  ⟨rfl,
   C8_extra_fields_retained miniLoads
     ("\x7b\"instruction\":\"a\",\"response\":\"b\",\"extra\":\"c\"\x7d").data
     [(ikey, JValue.jstr ("a").data), (rkey, JValue.jstr ("b").data),
      (("extra").data, JValue.jstr ("c").data)] rfl rfl rfl⟩

/-- C8 (counterexample): a source object with an extra field is
validated, the emitted record still contains the extra field, and the
serialized output line carries all three fields, contradicting the
claim that the pair and its output line carry exactly the two required
fields. -/
theorem C8_counterexample_extra_field_kept :
    validateJsonResponse miniLoads
        ("\x7b\"instruction\":\"a\",\"response\":\"b\",\"extra\":\"c\"\x7d").data =
      some [(ikey, JValue.jstr ("a").data), (rkey, JValue.jstr ("b").data),
        (("extra").data, JValue.jstr ("c").data)] ∧
    hasKeyB [(ikey, JValue.jstr ("a").data), (rkey, JValue.jstr ("b").data),
        (("extra").data, JValue.jstr ("c").data)] (("extra").data) = true ∧
    jsonDumps (JValue.jobj [(ikey, JValue.jstr ("a").data),
        (rkey, JValue.jstr ("b").data),
        (("extra").data, JValue.jstr ("c").data)]) =
      ("\x7b\"instruction\": \"a\", \"response\": \"b\", \"extra\": \"c\"\x7d").data :=
  ⟨rfl, rfl, rfl⟩

/-- The record a well-formed line parses to. -/
def recOf (loads : List Char → Option JValue) (l : List Char) : JObj :=
  match loads l with
  | some (JValue.jobj kvs) => kvs
  | _ => []

/-- On a list of lines whose every non-blank member parses to an object
carrying both keys, the strict parse keeps exactly the non-blank lines,
each mapped to its parsed object, in order. -/
theorem filterMap_stripValidate_eq_map (loads : List Char → Option JValue)
    (lines : List (List Char))
    (H : ∀ l ∈ lines, (pyStrip l).isEmpty = false →
        ∃ kvs, loads (pyStrip l) = some (JValue.jobj kvs) ∧
          hasKeyB kvs ikey = true ∧ hasKeyB kvs rkey = true) :
    lines.filterMap (stripValidate loads) =
      (lines.filter (fun l => !(pyStrip l).isEmpty)).map
        (fun l => recOf loads (pyStrip l)) := by
  induction lines with
  | nil => rfl
  | cons l rest ih =>
      have Hl := H l (List.mem_cons_self l rest)
      have Hrest : ∀ x ∈ rest, (pyStrip x).isEmpty = false →
          ∃ kvs, loads (pyStrip x) = some (JValue.jobj kvs) ∧
            hasKeyB kvs ikey = true ∧ hasKeyB kvs rkey = true :=
        fun x hx => H x (List.mem_cons_of_mem l hx)
      by_cases he : (pyStrip l).isEmpty = true
      · rw [List.filterMap_cons, List.filter_cons]
        simp only [he, Bool.not_true, Bool.false_eq_true, if_false]
        rw [show stripValidate loads l = none by unfold stripValidate; simp [he]]
        exact ih Hrest
      · simp only [Bool.not_eq_true] at he
        rcases Hl he with ⟨kvs, hload, hik, hrk⟩
        rw [List.filterMap_cons, List.filter_cons]
        simp only [he, Bool.not_false, if_true]
        have hsv : stripValidate loads l = some kvs := by
          unfold stripValidate
          simp only [he, Bool.false_eq_true, if_false]
          unfold validateJsonResponse
          rw [hload]
          show (if (hasKeyB kvs ikey && hasKeyB kvs rkey) = true
            then some kvs else none) = some kvs
          rw [hik, hrk]
          rfl
        rw [hsv, List.map_cons]
        have hrec : recOf loads (pyStrip l) = kvs := by
          unfold recOf
          rw [hload]
        rw [hrec]
        exact congrArg (kvs :: ·) (ih Hrest)

/-- C1: on well-formed JSONL (after prose-marker cleaning, every
non-blank line parses to a JSON object carrying both keys, and at least
one such line exists), the Anthropic strict parse returns exactly one
record per non-blank line, in the original line order; and a line whose
parse result is not an object (an array or any scalar) is always
dropped by the validator, never coerced. -/
theorem C1_wellformed_jsonl_one_record_per_line
    (loads : List Char → Option JValue) (raw : List Char)
    (H : ∀ l ∈ splitCh '\n' (cleanResponse raw), (pyStrip l).isEmpty = false →
        ∃ kvs, loads (pyStrip l) = some (JValue.jobj kvs) ∧
          hasKeyB kvs ikey = true ∧ hasKeyB kvs rkey = true)
    (HNE : ((splitCh '\n' (cleanResponse raw)).filter
        (fun l => !(pyStrip l).isEmpty)).isEmpty = false) :
    anthropicNormalize loads raw =
      Except.ok (((splitCh '\n' (cleanResponse raw)).filter
          (fun l => !(pyStrip l).isEmpty)).map
        (fun l => recOf loads (pyStrip l))) ∧
    (anthropicRecords loads raw).length =
      ((splitCh '\n' (cleanResponse raw)).filter
        (fun l => !(pyStrip l).isEmpty)).length ∧
    (∀ line v, loads line = some v → (∀ kvs, v ≠ JValue.jobj kvs) →
      validateJsonResponse loads line = none) := by
  have hrec : anthropicRecords loads raw =
      ((splitCh '\n' (cleanResponse raw)).filter
          (fun l => !(pyStrip l).isEmpty)).map
        (fun l => recOf loads (pyStrip l)) :=
    filterMap_stripValidate_eq_map loads _ H
  refine ⟨?_, ?_, ?_⟩
  · have h2 : (anthropicRecords loads raw).isEmpty = false := by
      rw [hrec, List.isEmpty_eq_false]
      rw [List.isEmpty_eq_false] at HNE
      simpa using HNE
    simp only [anthropicNormalize, h2, Bool.false_eq_true, if_false]
    rw [hrec]
  · rw [hrec, List.length_map]
  · intro line v hl hno
    unfold validateJsonResponse
    rw [hl]
    cases v with
    | jobj kvs => exact absurd rfl (hno kvs)
    | jnull => rfl
    | jbool b => rfl
    | jnum s => rfl
    | jstr s => rfl
    | jarr xs => rfl

/-- C1 (witness): the strict parse of a concrete two-line JSONL
response yields exactly its two records in order. -/
theorem C1_wellformed_jsonl_one_record_per_line_witness :
    anthropicNormalize miniLoads
        ("\x7b\"instruction\":\"q1\",\"response\":\"r1\"\x7d\n\x7b\"instruction\":\"q2\",\"response\":\"r2\"\x7d").data =
      Except.ok
        [[(ikey, JValue.jstr ("q1").data), (rkey, JValue.jstr ("r1").data)],
         [(ikey, JValue.jstr ("q2").data), (rkey, JValue.jstr ("r2").data)]] := by
  have h := C1_wellformed_jsonl_one_record_per_line miniLoads
    ("\x7b\"instruction\":\"q1\",\"response\":\"r1\"\x7d\n\x7b\"instruction\":\"q2\",\"response\":\"r2\"\x7d").data
    (by
      intro l hl _
      rw [show splitCh '\n' (cleanResponse
          ("\x7b\"instruction\":\"q1\",\"response\":\"r1\"\x7d\n\x7b\"instruction\":\"q2\",\"response\":\"r2\"\x7d").data) =
          [("\x7b\"instruction\":\"q1\",\"response\":\"r1\"\x7d").data,
           ("\x7b\"instruction\":\"q2\",\"response\":\"r2\"\x7d").data] from rfl] at hl
      rcases List.mem_cons.mp hl with rfl | hl2
      · exact ⟨[(ikey, JValue.jstr ("q1").data), (rkey, JValue.jstr ("r1").data)],
          rfl, rfl, rfl⟩
      · rcases List.mem_cons.mp hl2 with rfl | hl3
        · exact ⟨[(ikey, JValue.jstr ("q2").data), (rkey, JValue.jstr ("r2").data)],
            rfl, rfl, rfl⟩
        · cases hl3)
    (by rfl)
  exact h.1

/-- filterMap of a guarded map is a filter followed by a map. -/
theorem filterMap_guard_eq_filter_map {α β : Type} (c : α → Bool) (g : α → β)
    (l : List α) :
    l.filterMap (fun p => if c p then some (g p) else none) =
      (l.filter c).map g := by
  induction l with
  | nil => rfl
  | cons a rest ih =>
      rw [List.filterMap_cons, List.filter_cons]
      by_cases h : c a = true
      · rw [h]
        simp only [if_true, List.map_cons]
        rw [ih]
      · simp only [Bool.not_eq_true] at h
        rw [h]
        simp only [Bool.false_eq_true, if_false]
        exact ih

/-- Tier 1 of the legacy OpenAI generator keeps nothing when json.loads
rejects every stripped line. -/
theorem openaiLegacyTier1_all_none (loads : List Char → Option JValue)
    (lines : List (List Char))
    (H : ∀ l ∈ lines, loads (pyStrip l) = none) :
    openaiLegacyTier1 loads lines = Except.ok [] := by
  induction lines with
  | nil => rfl
  | cons l rest ih =>
      have Hl := H l (List.mem_cons_self l rest)
      have Hrest : ∀ x ∈ rest, loads (pyStrip x) = none :=
        fun x hx => H x (List.mem_cons_of_mem l hx)
      rw [openaiLegacyTier1]
      by_cases he : (pyStrip l).isEmpty = true
      · simp only [he, if_true]
        exact ih Hrest
      · simp only [Bool.not_eq_true] at he
        simp only [he, Bool.false_eq_true, if_false, Hl]
        exact ih Hrest

/-- C3 (amended): only the legacy generators in dont_use implement the
tier-3 colon fallback.  For the legacy OpenAI generator: whenever
json.loads rejects every stripped line of the stripped response (tier 1
keeps nothing) and some blank-line-separated paragraph contains a
colon, the parse returns exactly one pair per colon-containing
paragraph, in order, each split once at its first colon with both sides
stripped.  The src providers have no such fallback (see the
counterexample). -/
theorem C3_tier3_colon_fallback_legacy (loads : List Char → Option JValue)
    (raw : List Char)
    (H1 : ((splitCh '\n' (pyStrip raw)).all
        (fun l => (loads (pyStrip l)).isNone)) = true)
    (H2 : ((splitSeq ("\n\n").data (pyStrip raw)).any (containsChar ':')) = true) :
    openaiLegacyNormalize loads raw =
      Except.ok (((splitSeq ("\n\n").data (pyStrip raw)).filter
        (containsChar ':')).map colonPair) ∧
    (((splitSeq ("\n\n").data (pyStrip raw)).filter
        (containsChar ':')).map colonPair).length =
      ((splitSeq ("\n\n").data (pyStrip raw)).filter (containsChar ':')).length := by
  have hnone : ∀ l ∈ splitCh '\n' (pyStrip raw), loads (pyStrip l) = none := by
    intro l hl
    have := List.all_eq_true.mp H1 l hl
    exact Option.isNone_iff_eq_none.mp this
  have htier1 : openaiLegacyTier1 loads (splitCh '\n' (pyStrip raw)) =
      Except.ok [] := openaiLegacyTier1_all_none loads _ hnone
  have hcf : colonFallback (pyStrip raw) =
      ((splitSeq ("\n\n").data (pyStrip raw)).filter (containsChar ':')).map
        colonPair :=
    filterMap_guard_eq_filter_map _ _ _
  have hne : (((splitSeq ("\n\n").data (pyStrip raw)).filter
      (containsChar ':')).map colonPair).isEmpty = false := by
    rw [List.isEmpty_eq_false]
    simp only [ne_eq, List.map_eq_nil_iff]
    intro hnil
    rcases List.any_eq_true.mp H2 with ⟨p, hp, hc⟩
    exact absurd (List.filter_eq_nil_iff.mp hnil p hp) (by simp [hc])
  refine ⟨?_, (List.length_map _ _)⟩
  unfold openaiLegacyNormalize
  show (do
    let tier1 ← openaiLegacyTier1 loads (splitCh '\n' (pyStrip raw))
    let data := if tier1.isEmpty then colonFallback (pyStrip raw) else tier1
    if data.isEmpty then Except.error PyFail.noParseableData
    else Except.ok data) = _
  rw [htier1]
  show (if (colonFallback (pyStrip raw)).isEmpty then
      (Except.error PyFail.noParseableData : Except PyFail (List JValue))
    else Except.ok (colonFallback (pyStrip raw))) = _
  rw [hcf, hne]
  rfl

/-- C3 (counterexample): a response with no parseable JSON but with a
colon-containing paragraph makes the live OpenAI provider raise the
no-parseable-data error instead of falling back to a colon split: the
src providers have no tier 3. -/
theorem C3_counterexample_src_has_no_tier3 :
    ((splitSeq ("\n\n").data (pyStrip ("What is X: Y is Z").data)).any
      (containsChar ':')) = true ∧
    ((splitCh '\n' (pyStrip ("What is X: Y is Z").data)).all
      (fun l => (miniLoads (pyStrip l)).isNone)) = true ∧
    openaiSrcNormalize miniLoads ("What is X: Y is Z").data =
      Except.error NErr.noParseableData ∧
    anthropicNormalize miniLoads ("What is X: Y is Z").data =
      Except.error NErr.noParseableData :=
  ⟨rfl, rfl, rfl, rfl⟩

/-- C3 (witness): the legacy colon fallback applied to a concrete
three-paragraph response with two qualifying paragraphs. -/
theorem C3_tier3_colon_fallback_legacy_witness :
    openaiLegacyNormalize miniLoads
        ("What is A: alpha\n\nno colon here\n\nB: beta").data =
      Except.ok
        [JValue.jobj [(ikey, JValue.jstr ("What is A").data),
          (rkey, JValue.jstr ("alpha").data)],
         JValue.jobj [(ikey, JValue.jstr ("B").data),
          (rkey, JValue.jstr ("beta").data)]] := by
  have h := C3_tier3_colon_fallback_legacy miniLoads
    ("What is A: alpha\n\nno colon here\n\nB: beta").data (by rfl) (by rfl)
  exact h.1

/-- Whatever the member-parsing mode returns is an object. -/
theorem parseJ_pmembers_obj (fuel : Nat) :
    ∀ (acc : List (List Char × JValue)) (s : List Char) (v : JValue)
      (r : List Char),
      parseJ fuel (PMode.pmembers acc) s = some (v, r) →
      ∃ kvs, v = JValue.jobj kvs := by
  induction fuel with
  | zero =>
      intro acc s v r h
      exact absurd h (by simp [parseJ])
  | succ n ih =>
      intro acc s v r h
      rw [parseJ] at h
      split at h
      · split at h
        · exact absurd h (by simp)
        · split at h
          · split at h
            · exact absurd h (by simp)
            · split at h
              · exact ih _ _ _ _ h
              · simp only [Option.some.injEq, Prod.mk.injEq] at h
                exact ⟨_, h.1.symm⟩
              · exact absurd h (by simp)
          · exact absurd h (by simp)
      · exact absurd h (by simp)

/-- A successful parse of input starting with an opening brace is an
object. -/
theorem parseJ_pval_brace (fuel : Nat) (rest : List Char) (v : JValue)
    (r : List Char)
    (h : parseJ (fuel + 1) PMode.pval ('{' :: rest) = some (v, r)) :
    ∃ kvs, v = JValue.jobj kvs := by
  rw [parseJ] at h
  rw [show skipWs ('{' :: rest) = '{' :: rest from rfl] at h
  simp only [show (('{' : Char) = '{') = True by simp, if_true] at h
  split at h
  · simp only [Option.some.injEq, Prod.mk.injEq] at h
    exact ⟨[], h.1.symm⟩
  · exact parseJ_pmembers_obj fuel _ _ _ _ h

/-- json.loads of a text starting with an opening brace is an object or
a failure, never an array or a scalar. -/
theorem miniLoads_brace_obj (s : List Char) (h : isPre ['{'] s = true) :
    miniLoads s = none ∨ ∃ kvs, miniLoads s = some (JValue.jobj kvs) := by
  obtain ⟨rest, rfl⟩ : ∃ rest, s = '{' :: rest := by
    cases s with
    | nil => simp [isPre] at h
    | cons c cs =>
        simp only [isPre, Bool.and_eq_true, decide_eq_true_eq] at h
        exact ⟨cs, by rw [h.1]⟩
  unfold miniLoads
  cases hp : parseJ (2 * ('{' :: rest).length + 2) PMode.pval ('{' :: rest) with
  | none => exact Or.inl rfl
  | some p =>
      obtain ⟨v, r⟩ := p
      obtain ⟨kvs, rfl⟩ := parseJ_pval_brace (2 * ('{' :: rest).length + 1)
        rest v r hp
      by_cases hr : (skipWs r).isEmpty = true
      · exact Or.inr ⟨kvs, by simp [hr]⟩
      · simp only [Bool.not_eq_true] at hr
        exact Or.inl (by simp [hr])

/-- A text starting with a brace is non-empty. -/
theorem isPre_brace_nonempty (x : List Char) (h : isPre ['{'] x = true) :
    x.isEmpty = false := by
  cases x with
  | nil => simp [isPre] at h
  | cons c cs => rfl

/-- A text ending with a brace is non-empty. -/
theorem isSuf_brace_nonempty (x : List Char) (h : isSuf ['}'] x = true) :
    x.isEmpty = false := by
  cases x with
  | nil => simp [isSuf, isPre] at h
  | cons c cs => rfl

/-- Appending on the right preserves a leading brace. -/
theorem isPre_brace_append (a b : List Char) (h : isPre ['{'] a = true) :
    isPre ['{'] (a ++ b) = true := by
  cases a with
  | nil => simp [isPre] at h
  | cons c cs =>
      simp only [isPre, Bool.and_eq_true, decide_eq_true_eq] at h
      simp only [List.cons_append, isPre, Bool.and_eq_true, decide_eq_true_eq]
      exact ⟨h.1, trivial⟩

/-- Invariant of the accumulation scan: an open buffer always starts
with the opening brace that began it. -/
def OInv (st : OState) : Prop :=
  st.inJson = true → isPre ['{'] st.cur = true

/-- One line of the accumulation scan, under a loader that returns only
objects (or failures) on brace-led buffers: the scan never raises, and
the kept records only grow. -/
theorem ollamaScan_cons (loads : List Char → Option JValue)
    (Hobj : ∀ b, isPre ['{'] b = true →
      loads b = none ∨ ∃ kvs, loads b = some (JValue.jobj kvs))
    (line : List Char) (st : OState) (hInv : OInv st) :
    ∃ st2, (∀ rest, ollamaScan loads (line :: rest) st =
        ollamaScan loads rest st2) ∧ OInv st2 ∧
      ∃ ext, st2.data = st.data ++ ext := by
  by_cases h1 : (pyStrip line).isEmpty = true
  · refine ⟨st, fun rest => ?_, hInv, [], (List.append_nil _).symm⟩
    rw [ollamaScan]
    simp [h1]
  · simp only [Bool.not_eq_true] at h1
    by_cases h2 : isPre ['{'] (pyStrip line) = true
    · refine ⟨{ st with cur := pyStrip line, inJson := true },
        fun rest => ?_, fun _ => h2, [], (List.append_nil _).symm⟩
      rw [ollamaScan]
      simp [h1, h2]
    · simp only [Bool.not_eq_true] at h2
      by_cases h3 : (st.inJson && isSuf ['}'] (pyStrip line)) = true
      · have hj : st.inJson = true := by
          have h5 := h3
          simp only [Bool.and_eq_true] at h5
          exact h5.1
        have hcur : isPre ['{'] st.cur = true := hInv hj
        have hbuf : isPre ['{'] (st.cur ++ pyStrip line) = true :=
          isPre_brace_append _ _ hcur
        rcases Hobj _ hbuf with hnone | ⟨kvs2, hsome⟩
        · refine ⟨{ st with cur := [], inJson := false },
            fun rest => ?_, fun hfalse => by simp at hfalse, [],
            (List.append_nil _).symm⟩
          rw [ollamaScan]
          simp only [h1, Bool.false_eq_true, if_false, h2, h3, if_true]
          rw [hnone]
        · refine ⟨⟨if hasKeyB kvs2 ikey && hasKeyB kvs2 rkey then
              st.data ++ [JValue.jobj kvs2] else st.data, [], false⟩,
            fun rest => ?_, fun hfalse => by simp at hfalse,
            if hasKeyB kvs2 ikey && hasKeyB kvs2 rkey then
              [JValue.jobj kvs2] else [], ?_⟩
          · rw [ollamaScan]
            simp only [h1, Bool.false_eq_true, if_false, h2, h3, if_true]
            rw [hsome]
            show (do
              let b1 ← pyIn ikey (JValue.jobj kvs2)
              let b2 ← pyIn rkey (JValue.jobj kvs2)
              let d := if b1 && b2 then st.data ++ [JValue.jobj kvs2] else st.data
              ollamaScan loads rest { data := d, cur := [], inJson := false }) = _
            rw [show pyIn ikey (JValue.jobj kvs2) =
              Except.ok (hasKeyB kvs2 ikey) from rfl]
            rw [show pyIn rkey (JValue.jobj kvs2) =
              Except.ok (hasKeyB kvs2 rkey) from rfl]
            rfl
          · by_cases hk : (hasKeyB kvs2 ikey && hasKeyB kvs2 rkey) = true
            · simp [hk]
            · simp only [Bool.not_eq_true] at hk
              simp [hk]
      · simp only [Bool.not_eq_true] at h3
        by_cases h4 : st.inJson = true
        · have hsuf : isSuf ['}'] (pyStrip line) = false := by
            rw [h4] at h3
            simpa using h3
          refine ⟨{ st with cur := st.cur ++ pyStrip line },
            fun rest => ?_, fun _ => isPre_brace_append _ _ (hInv h4),
            [], (List.append_nil _).symm⟩
          rw [ollamaScan]
          simp [h1, h2, h4, hsuf]
        · simp only [Bool.not_eq_true] at h4
          refine ⟨st, fun rest => ?_, hInv, [], (List.append_nil _).symm⟩
          rw [ollamaScan]
          simp [h1, h2, h3, h4]

/-- The accumulation scan, under an object-only loader, always
succeeds and only extends the kept records. -/
theorem ollamaScan_run (loads : List Char → Option JValue)
    (Hobj : ∀ b, isPre ['{'] b = true →
      loads b = none ∨ ∃ kvs, loads b = some (JValue.jobj kvs))
    (lines : List (List Char)) :
    ∀ st : OState, OInv st →
      ∃ st', ollamaScan loads lines st = Except.ok st' ∧ OInv st' ∧
        ∃ ext, st'.data = st.data ++ ext := by
  induction lines with
  | nil =>
      intro st hInv
      exact ⟨st, rfl, hInv, [], (List.append_nil _).symm⟩
  | cons line rest ih =>
      intro st hInv
      obtain ⟨st2, heq, hInv2, ext1, hdata1⟩ :=
        ollamaScan_cons loads Hobj line st hInv
      obtain ⟨st', heq', hInv', ext2, hdata2⟩ := ih st2 hInv2
      refine ⟨st', (heq rest).trans heq', hInv', ext1 ++ ext2, ?_⟩
      rw [hdata2, hdata1, List.append_assoc]

/-- Processing a block of lines before a window only changes the
state, preserving the invariant and extending the records. -/
theorem ollamaScan_through (loads : List Char → Option JValue)
    (Hobj : ∀ b, isPre ['{'] b = true →
      loads b = none ∨ ∃ kvs, loads b = some (JValue.jobj kvs))
    (pre : List (List Char)) :
    ∀ (rest : List (List Char)) (st : OState), OInv st →
      ∃ st2, ollamaScan loads (pre ++ rest) st = ollamaScan loads rest st2 ∧
        OInv st2 ∧ ∃ ext, st2.data = st.data ++ ext := by
  induction pre with
  | nil =>
      intro rest st hInv
      exact ⟨st, rfl, hInv, [], (List.append_nil _).symm⟩
  | cons p pre' ih =>
      intro rest st hInv
      obtain ⟨st1, heq, hInv1, ext1, hdata1⟩ :=
        ollamaScan_cons loads Hobj p st hInv
      obtain ⟨st2, heq', hInv2, ext2, hdata2⟩ := ih rest st1 hInv1
      refine ⟨st2, ?_, hInv2, ext1 ++ ext2, ?_⟩
      · rw [List.cons_append, heq (pre' ++ rest), heq']
      · rw [hdata2, hdata1, List.append_assoc]

/-- While a buffer is open, lines that neither begin nor close an
object are appended (stripped) to the buffer, blank lines skipped. -/
theorem ollamaScan_mid (loads : List Char → Option JValue)
    (mid : List (List Char)) :
    ∀ (rest : List (List Char)) (d : List JValue) (c : List Char),
      mid.all (fun m => (pyStrip m).isEmpty ||
        (!(isPre ['{'] (pyStrip m)) && !(isSuf ['}'] (pyStrip m)))) = true →
      ollamaScan loads (mid ++ rest) ⟨d, c, true⟩ =
        ollamaScan loads rest ⟨d, c ++ (mid.map pyStrip).flatten, true⟩ := by
  induction mid with
  | nil =>
      intro rest d c _
      simp
  | cons m mid' ih =>
      intro rest d c Hmid
      simp only [List.all_cons, Bool.and_eq_true] at Hmid
      obtain ⟨Hm, Hmid'⟩ := Hmid
      rw [List.cons_append, ollamaScan]
      by_cases h1 : (pyStrip m).isEmpty = true
      · simp only [h1, if_true]
        rw [ih rest d c (by exact Hmid')]
        have : pyStrip m = [] := List.isEmpty_iff.mp h1
        simp [this]
      · simp only [Bool.not_eq_true] at h1
        rw [h1] at Hm
        simp only [Bool.false_or, Bool.and_eq_true, Bool.not_eq_true'] at Hm
        obtain ⟨Hm1, Hm2⟩ := Hm
        simp only [h1, Bool.false_eq_true, if_false, Hm1, show
          (true && isSuf ['}'] (pyStrip m)) = false by rw [Hm2]; rfl,
          if_true]
        rw [ih rest d (c ++ pyStrip m) (by exact Hmid')]
        simp [List.append_assoc]

/-- C2 (amended): only the legacy Ollama generator in dont_use
implements the tier-2 multi-line accumulation; the src providers parse
strictly line-by-line and raise on such input (see the counterexample).
For the legacy generator: whenever the response lines contain a window
of a brace-opening line, continuation lines that neither open nor close
a brace, and a brace-closing line, whose stripped concatenation
json.loads parses to an object carrying both keys, the parse succeeds
and its output contains that object.  The loader hypothesis Hobj holds
of json.loads: on a brace-led buffer it returns an object or fails. -/
theorem C2_tier2_multiline_recovery (loads : List Char → Option JValue)
    (raw : List Char) (pre mid post : List (List Char)) (l0 lk : List Char)
    (kvs : JObj)
    (Hlines : splitCh '\n' raw = pre ++ (l0 :: (mid ++ lk :: post)))
    (H0 : isPre ['{'] (pyStrip l0) = true)
    (Hmid : mid.all (fun m => (pyStrip m).isEmpty ||
        (!(isPre ['{'] (pyStrip m)) && !(isSuf ['}'] (pyStrip m)))) = true)
    (Hk1 : isSuf ['}'] (pyStrip lk) = true)
    (Hk2 : isPre ['{'] (pyStrip lk) = false)
    (Hbuf : loads (pyStrip l0 ++ (mid.map pyStrip).flatten ++ pyStrip lk) =
      some (JValue.jobj kvs))
    (Hik : hasKeyB kvs ikey = true) (Hrk : hasKeyB kvs rkey = true)
    (Hobj : ∀ b, isPre ['{'] b = true →
      loads b = none ∨ ∃ kvs2, loads b = some (JValue.jobj kvs2)) :
    ∃ out, ollamaLegacyNormalize loads raw = Except.ok out ∧
      JValue.jobj kvs ∈ out := by
  have hstrip0 : (pyStrip l0).isEmpty = false := isPre_brace_nonempty _ H0
  have hstripk : (pyStrip lk).isEmpty = false := isSuf_brace_nonempty _ Hk1
  have hl0 : ∀ (X : List (List Char)) (st : OState),
      ollamaScan loads (l0 :: X) st =
        ollamaScan loads X ⟨st.data, pyStrip l0, true⟩ := by
    intro X st
    rw [ollamaScan]
    simp [hstrip0, H0]
  have hlk : ∀ (X : List (List Char)) (d : List JValue) (c : List Char),
      loads (c ++ pyStrip lk) = some (JValue.jobj kvs) →
      ollamaScan loads (lk :: X) ⟨d, c, true⟩ =
        ollamaScan loads X ⟨d ++ [JValue.jobj kvs], [], false⟩ := by
    intro X d c hload
    rw [ollamaScan]
    simp only [hstripk, Bool.false_eq_true, if_false, Hk2, Hk1,
      Bool.and_self, if_true]
    rw [show (OState.mk d c true).cur ++ pyStrip lk = c ++ pyStrip lk from rfl,
      hload]
    show ollamaScan loads X ⟨if (hasKeyB kvs ikey && hasKeyB kvs rkey) = true
      then d ++ [JValue.jobj kvs] else d, [], false⟩ = _
    rw [Hik, Hrk]
    rfl
  obtain ⟨st1, heqPre, hInv1, ext1, hdata1⟩ :=
    ollamaScan_through loads Hobj pre (l0 :: (mid ++ lk :: post))
      ⟨[], [], false⟩ (fun h => by simp at h)
  obtain ⟨st', heqPost, hInv', ext2, hdata2⟩ :=
    ollamaScan_run loads Hobj post ⟨st1.data ++ [JValue.jobj kvs], [], false⟩
      (fun h => by simp at h)
  have hscan : ollamaScan loads (splitCh '\n' raw) ⟨[], [], false⟩ =
      Except.ok st' := by
    rw [Hlines, heqPre, hl0 (mid ++ lk :: post) st1]
    rw [ollamaScan_mid loads mid (lk :: post) st1.data (pyStrip l0) Hmid]
    rw [hlk post st1.data (pyStrip l0 ++ (mid.map pyStrip).flatten) Hbuf]
    exact heqPost
  have hmem : JValue.jobj kvs ∈ st'.data := by
    rw [hdata2]
    exact List.mem_append_left _ (List.mem_append_right _ (List.mem_singleton_self _))
  have hne : st'.data.isEmpty = false := by
    rw [List.isEmpty_eq_false]
    intro hnil
    rw [hnil] at hmem
    cases hmem
  refine ⟨st'.data, ?_, hmem⟩
  unfold ollamaLegacyNormalize
  rw [hscan]
  show (if st'.data.isEmpty then Except.ok (colonFallback raw)
    else Except.ok st'.data) = _
  rw [hne]
  rfl

/-- C2 (counterexample): on a response that is one valid JSON object
wrapped across four lines, the strict line parse of the live providers
yields zero records even though the accumulated buffer parses to an
object with both keys, and the live Anthropic normalization raises
instead of recovering it: the src providers have no tier 2. -/
theorem C2_counterexample_src_has_no_tier2 :
    anthropicRecords miniLoads
        ("\x7b\n\"instruction\": \"a\",\n\"response\": \"b\"\n\x7d").data = [] ∧
    miniLoads ("\x7b\"instruction\": \"a\",\"response\": \"b\"\x7d").data =
      some (JValue.jobj [(ikey, JValue.jstr ("a").data),
        (rkey, JValue.jstr ("b").data)]) ∧
    anthropicNormalize miniLoads
        ("\x7b\n\"instruction\": \"a\",\n\"response\": \"b\"\n\x7d").data =
      Except.error NErr.noParseableData ∧
    openaiSrcNormalize miniLoads
        ("\x7b\n\"instruction\": \"a\",\n\"response\": \"b\"\n\x7d").data =
      Except.error NErr.noParseableData :=
  ⟨rfl, rfl, rfl, rfl⟩

/-- C2 (witness): the legacy Ollama accumulation recovers the wrapped
object of a concrete four-line response. -/
theorem C2_tier2_multiline_recovery_witness :
    ∃ out, ollamaLegacyNormalize miniLoads
        ("\x7b\n\"instruction\": \"a\",\n\"response\": \"b\"\n\x7d").data =
      Except.ok out ∧
    JValue.jobj [(ikey, JValue.jstr ("a").data),
      (rkey, JValue.jstr ("b").data)] ∈ out :=
  C2_tier2_multiline_recovery miniLoads
    ("\x7b\n\"instruction\": \"a\",\n\"response\": \"b\"\n\x7d").data
    [] [("\"instruction\": \"a\",").data, ("\"response\": \"b\"").data] []
    ("\x7b").data ("\x7d").data
    [(ikey, JValue.jstr ("a").data), (rkey, JValue.jstr ("b").data)]
    rfl rfl rfl rfl rfl rfl rfl rfl miniLoads_brace_obj
